import Mathlib

/-!
Verification of the forecasting pipeline in src/forecasting_model.py of the
ethiopia-fi-forecast repository.

Embedding conventions:
- A pandas Series indexed by year is a list of (year, value) pairs; the index
  is the list of first components, kept in order.
- Python floats are embedded as exact rationals (idealized real arithmetic).
- Python dicts (event_impacts, event_schedule) are association lists in
  insertion order; dict.get with a default becomes List.lookup plus getD.
- np.log and np.exp are transcendental, so they are passed to the embedded
  functions as explicit function parameters rlog and rexp; every claim below
  is proved for all choices of these parameters, which is what the source
  guarantees structurally.
- sklearn LinearRegression.fit is ordinary least squares on one feature: the
  closed-form slope ssxy/ssxx and intercept ybar - slope * xbar; when all
  years coincide (ssxx = 0) the minimum-norm least-squares solution has
  slope 0, matching lstsq on the centered data. fit raises ValueError on an
  empty sample, embedded as Option.none.
-/

namespace EthiopiaFiForecast

/-- A pandas Series indexed by year: ordered (year, value) pairs. -/
abbrev Series := List (Int × ℚ)

/-- Index of a series, in order (pandas Series.index). -/
def seriesIndex (s : Series) : List Int := s.map Prod.fst

/-- Values of a series, in order (pandas Series.values). -/
def seriesValues (s : Series) : List ℚ := s.map Prod.snd

/-- pandas adjusted.loc[y] += delta guarded by (if y in adjusted.index):
adds delta to every entry whose year equals y; a year absent from the
index leaves the series unchanged. -/
def addAtYear (s : Series) (y : Int) (delta : ℚ) : Series :=
  if y ∈ seriesIndex s then
    s.map (fun p => if p.1 = y then (p.1, p.2 + delta) else p)
  else s

/-- event_schedule.get(event, []) from the source. -/
def scheduleOf (event_schedule : List (String × List Int)) (e : String) : List Int :=
  (event_schedule.lookup e).getD []

/-- apply_event_impacts from src/forecasting_model.py lines 107-122:
copies the baseline, then for each (event, impact) in event_impacts and each
year in event_schedule.get(event, []) that is present in the index, adds
impact * scenario_multiplier at that year. -/
def apply_event_impacts (baseline : Series) (event_impacts : List (String × ℚ))
    (event_schedule : List (String × List Int)) (scenario_multiplier : ℚ) : Series :=
  event_impacts.foldl
    (fun adjusted ei =>
      (scheduleOf event_schedule ei.1).foldl
        (fun adj y => addAtYear adj y (ei.2 * scenario_multiplier)) adjusted)
    baseline

/-- Scalar times series, elementwise (pandas scalar * Series). -/
def seriesScale (c : ℚ) (s : Series) : Series := s.map (fun p => (p.1, c * p.2))

/-- Sum of two series on an identical index (pandas aligned addition; the
source only ever adds series sharing one index object). -/
def seriesAdd (s t : Series) : Series :=
  List.zipWith (fun p q => (p.1, p.2 + q.2)) s t

/-- Difference of two series on an identical index. -/
def seriesSub (s t : Series) : Series :=
  List.zipWith (fun p q => (p.1, p.2 - q.2)) s t

/-- Result of build_scenarios: the dict with keys optimistic, base,
pessimistic from src/forecasting_model.py lines 128-137. -/
structure Scenarios where
  optimistic : Series
  base : Series
  pessimistic : Series
deriving DecidableEq

/-- build_scenarios from src/forecasting_model.py lines 128-137.
The float literals 1.2 and 0.7 are embedded as the rationals 12/10 and 7/10. -/
def build_scenarios (baseline with_events : Series) : Scenarios :=
  ⟨seriesAdd baseline (seriesScale (12/10) (seriesSub with_events baseline)),
   with_events,
   seriesAdd baseline (seriesScale (7/10) (seriesSub with_events baseline))⟩

/-- Result of compute_confidence_intervals: the DataFrame with columns
lower and upper. -/
structure ConfidenceIntervals where
  lower : Series
  upper : Series
deriving DecidableEq

/-- compute_confidence_intervals from src/forecasting_model.py lines 143-147:
lower = forecast * (1 - uncertainty_width), upper = forecast * (1 + uncertainty_width). -/
def compute_confidence_intervals (forecast : Series) (uncertainty_width : ℚ) :
    ConfidenceIntervals :=
  ⟨forecast.map (fun p => (p.1, p.2 * (1 - uncertainty_width))),
   forecast.map (fun p => (p.1, p.2 * (1 + uncertainty_width)))⟩

/-- The training sample passed to LinearRegression.fit: X is the year column,
y is the value column, logged first when log_transform is set
(src/forecasting_model.py lines 75-88). -/
def trainingPoints (rlog : ℚ → ℚ) (data : List (Int × ℚ)) (log_transform : Bool) :
    List (ℚ × ℚ) :=
  data.map (fun p => ((p.1 : ℚ), if log_transform then rlog p.2 else p.2))

/-- Mean of the x coordinates of a sample. -/
def xbar (pts : List (ℚ × ℚ)) : ℚ := (pts.map Prod.fst).sum / pts.length

/-- Mean of the y coordinates of a sample. -/
def ybar (pts : List (ℚ × ℚ)) : ℚ := (pts.map Prod.snd).sum / pts.length

/-- Centered sum of squares of x. -/
def ssxx (pts : List (ℚ × ℚ)) : ℚ :=
  (pts.map (fun p => (p.1 - xbar pts) ^ 2)).sum

/-- Centered sum of cross products. -/
def ssxy (pts : List (ℚ × ℚ)) : ℚ :=
  (pts.map (fun p => (p.1 - xbar pts) * (p.2 - ybar pts))).sum

/-- Ordinary-least-squares slope fitted by sklearn LinearRegression on one
feature; when every x coincides the centered design is zero and lstsq returns
the minimum-norm solution, slope 0. -/
def fitSlope (pts : List (ℚ × ℚ)) : ℚ :=
  if ssxx pts = 0 then 0 else ssxy pts / ssxx pts

/-- Ordinary-least-squares intercept fitted by sklearn LinearRegression. -/
def fitIntercept (pts : List (ℚ × ℚ)) : ℚ :=
  ybar pts - fitSlope pts * xbar pts

/-- fit_trend_model from src/forecasting_model.py lines 75-88: logs y when
log_transform is set, then fits LinearRegression; sklearn raises ValueError
on an empty sample (none); otherwise the fitted model is the
(slope, intercept) pair. -/
def fit_trend_model (rlog : ℚ → ℚ) (data : List (Int × ℚ)) (log_transform : Bool) :
    Option (ℚ × ℚ) :=
  if data.isEmpty then none
  else
    let pts := trainingPoints rlog data log_transform
    some (fitSlope pts, fitIntercept pts)

/-- forecast_trend from src/forecasting_model.py lines 91-101: predicts
slope * year + intercept for each requested year, exponentiates when
log_transform is set, and returns a Series indexed by the given years. -/
def forecast_trend (rexp : ℚ → ℚ) (model : ℚ × ℚ) (years : List Int)
    (log_transform : Bool) : Series :=
  let y_pred := years.map (fun (y : Int) => model.1 * (y : ℚ) + model.2)
  let y_pred := if log_transform then y_pred.map rexp else y_pred
  years.zip y_pred

/-- One row of the final forecast table: the dataclass ForecastResult and the
column list of the DataFrame assembled in run_forecast_pipeline (year,
baseline, with_events, optimistic, base, pessimistic, ci_lower, ci_upper). -/
structure ForecastRow where
  year : Int
  baseline : ℚ
  with_events : ℚ
  optimistic : ℚ
  base : ℚ
  pessimistic : ℚ
  ci_lower : ℚ
  ci_upper : ℚ
deriving DecidableEq

/-- The pd.DataFrame constructor of run_forecast_pipeline: pairs the year
list with the values arrays of the eight columns, positionally. All arrays
have equal length whenever the pipeline builds them. -/
def mkForecastTable : List Int → List ℚ → List ℚ → List ℚ → List ℚ → List ℚ →
    List ℚ → List ℚ → List ForecastRow
  | y :: ys, b :: bs, w :: ws, o :: os, a :: as, p :: ps, l :: ls, u :: us =>
      ⟨y, b, w, o, a, p, l, u⟩ :: mkForecastTable ys bs ws os as ps ls us
  | _, _, _, _, _, _, _, _ => []

/-- run_forecast_pipeline from src/forecasting_model.py lines 153-192.
The historical DataFrame restricted to its year and value columns is the
list of (year, value) pairs. Failure of the trend fit propagates as none;
otherwise the assembled forecast table is returned. -/
def run_forecast_pipeline (rlog rexp : ℚ → ℚ) (historical : List (Int × ℚ))
    (forecast_years : List Int) (event_impacts : List (String × ℚ))
    (event_schedule : List (String × List Int)) (log_trend : Bool)
    (uncertainty_width : ℚ) : Option (List ForecastRow) :=
  match fit_trend_model rlog historical log_trend with
  | none => none
  | some trend_model =>
    let baseline := forecast_trend rexp trend_model forecast_years log_trend
    let with_events := apply_event_impacts baseline event_impacts event_schedule 1
    let scenarios := build_scenarios baseline with_events
    let ci := compute_confidence_intervals scenarios.base uncertainty_width
    some (mkForecastTable forecast_years (seriesValues baseline)
      (seriesValues with_events) (seriesValues scenarios.optimistic)
      (seriesValues scenarios.base) (seriesValues scenarios.pessimistic)
      (seriesValues ci.lower) (seriesValues ci.upper))

/-- Closed form of the accumulated event adjustment at a year y: each event
contributes impact * multiplier once per scheduled occurrence of y, and the
contributions of all events add up (the strictly additive policy). -/
def totalImpact (event_impacts : List (String × ℚ))
    (event_schedule : List (String × List Int)) (m : ℚ) (y : Int) : ℚ :=
  (event_impacts.map
    (fun ei => ei.2 * m * ((scheduleOf event_schedule ei.1).count y : ℚ))).sum

/-- Sum of squared residuals of the affine model y = a * x + b on a sample:
the objective that ordinary least squares minimizes. -/
def sse (pts : List (ℚ × ℚ)) (a b : ℚ) : ℚ :=
  (pts.map (fun p => (p.2 - (a * p.1 + b)) ^ 2)).sum

/-- The all-zero forecast row, used as an out-of-range default. -/
def zeroRow : ForecastRow := ⟨0, 0, 0, 0, 0, 0, 0, 0⟩

/-- The two local variables live in the body of apply_event_impacts: the
baseline parameter and the working series adjusted. The source initializes
adjusted with baseline.copy(), so the two are independent cells and the
loop writes only to adjusted. -/
structure EventImpactsLocals where
  baseline : Series
  adjusted : Series
deriving DecidableEq

/-- Statement-level embedding of the body of apply_event_impacts, tracking
both local variables: adjusted starts as a copy of baseline and every
loop iteration updates adjusted only. -/
def apply_event_impacts_body (baseline : Series) (event_impacts : List (String × ℚ))
    (event_schedule : List (String × List Int)) (scenario_multiplier : ℚ) :
    EventImpactsLocals :=
  event_impacts.foldl
    (fun st ei =>
      (scheduleOf event_schedule ei.1).foldl
        (fun st y => ⟨st.baseline, addAtYear st.adjusted y (ei.2 * scenario_multiplier)⟩) st)
    ⟨baseline, baseline⟩

/-! Helper lemmas on list sums. -/

theorem sum_map_sub {α : Type} (l : List α) (f g : α → ℚ) :
    (l.map (fun x => f x - g x)).sum = (l.map f).sum - (l.map g).sum := by
  induction l with
  | nil => simp
  | cons a l ih => simp [ih]; ring

theorem sum_map_sub_const {α : Type} (l : List α) (f : α → ℚ) (c : ℚ) :
    (l.map (fun x => f x - c)).sum = (l.map f).sum - l.length * c := by
  induction l with
  | nil => simp
  | cons a l ih => simp [ih]; ring

theorem sum_all_zero_of_nonneg :
    ∀ l : List ℚ, (∀ x ∈ l, 0 ≤ x) → l.sum = 0 → ∀ x ∈ l, x = 0 := by
  intro l
  induction l with
  | nil => intro _ _ x hx; cases hx
  | cons a l ih =>
    intro hpos hsum x hx
    have ha : 0 ≤ a := hpos a (List.mem_cons_self a l)
    have hl : 0 ≤ l.sum := List.sum_nonneg (fun z hz => hpos z (List.mem_cons_of_mem a hz))
    have hsum2 : a + l.sum = 0 := by simpa using hsum
    have ha0 : a = 0 := by linarith
    have hl0 : l.sum = 0 := by linarith
    rcases List.mem_cons.mp hx with hx1 | hx1
    · exact hx1 ▸ ha0
    · exact ih (fun z hz => hpos z (List.mem_cons_of_mem a hz)) hl0 x hx1

/-! Pointwise characterization of apply_event_impacts. -/

theorem map_update_of_not_mem (y : Int) (delta : ℚ) :
    ∀ s : Series, y ∉ seriesIndex s →
      s.map (fun p => if p.1 = y then (p.1, p.2 + delta) else p) = s := by
  intro s
  induction s with
  | nil => intro _; rfl
  | cons p ps ih =>
    intro h
    have h1 : ¬ p.1 = y := by
      intro he
      exact h (by simp [seriesIndex, he])
    have h2 : y ∉ seriesIndex ps := by
      intro hm
      apply h
      simp only [seriesIndex, List.map_cons, List.mem_cons]
      exact Or.inr hm
    simp [List.map_cons, if_neg h1, ih h2]

theorem addAtYear_eq (s : Series) (y : Int) (delta : ℚ) :
    addAtYear s y delta
      = s.map (fun p => if p.1 = y then (p.1, p.2 + delta) else p) := by
  unfold addAtYear
  split
  · rfl
  · next h => exact (map_update_of_not_mem y delta s h).symm

theorem foldl_addAtYear (delta : ℚ) :
    ∀ (ys : List Int) (s : Series),
      ys.foldl (fun adj y => addAtYear adj y delta) s
        = s.map (fun p => (p.1, p.2 + delta * (ys.count p.1 : ℚ))) := by
  intro ys
  induction ys with
  | nil =>
    intro s
    simp
  | cons y ys ih =>
    intro s
    rw [List.foldl_cons, ih, addAtYear_eq, List.map_map]
    congr 1
    funext p
    by_cases hp : p.1 = y
    · have hb : (y == p.1) = true := beq_iff_eq.mpr hp.symm
      simp only [Function.comp_apply, if_pos hp, List.count_cons, hb, if_true]
      exact congrArg (Prod.mk p.1) (by push_cast; ring)
    · have hb : ¬ (y == p.1) = true := by
        simp only [beq_iff_eq]
        exact fun he => hp he.symm
      simp only [Function.comp_apply, if_neg hp, List.count_cons, if_neg hb, add_zero]

theorem apply_event_impacts_eq :
    ∀ (ei : List (String × ℚ)) (es : List (String × List Int)) (m : ℚ)
      (s : Series),
      ei.foldl
        (fun adjusted e =>
          (scheduleOf es e.1).foldl
            (fun adj y => addAtYear adj y (e.2 * m)) adjusted) s
        = s.map (fun p => (p.1, p.2 + totalImpact ei es m p.1)) := by
  intro ei
  induction ei with
  | nil =>
    intro es m s
    simp [totalImpact]
  | cons e ei ih =>
    intro es m s
    rw [List.foldl_cons, foldl_addAtYear, ih es m, List.map_map]
    congr 1
    funext p
    simp only [Function.comp, totalImpact, List.map_cons, List.sum_cons]
    exact congrArg (Prod.mk p.1) (by ring)

theorem apply_event_impacts_closed_form (baseline : Series)
    (ei : List (String × ℚ)) (es : List (String × List Int)) (m : ℚ) :
    apply_event_impacts baseline ei es m
      = baseline.map (fun p => (p.1, p.2 + totalImpact ei es m p.1)) := by
  unfold apply_event_impacts
  exact apply_event_impacts_eq ei es m baseline

/-! Series index and value helpers. -/

theorem seriesIndex_map_snd (s : Series) (f : Int × ℚ → ℚ) :
    seriesIndex (s.map (fun p => (p.1, f p))) = seriesIndex s := by
  simp only [seriesIndex, List.map_map]
  rfl

theorem totalImpact_mul (ei : List (String × ℚ)) (es : List (String × List Int))
    (m : ℚ) (y : Int) :
    totalImpact ei es m y = m * totalImpact ei es 1 y := by
  unfold totalImpact
  rw [← List.sum_map_mul_left]
  exact congrArg List.sum (List.map_congr_left (fun e _ => by ring))

theorem totalImpact_zero_of_unscheduled (ei : List (String × ℚ))
    (es : List (String × List Int)) (m : ℚ) (y : Int)
    (h : ∀ e ∈ ei, y ∉ scheduleOf es e.1) :
    totalImpact ei es m y = 0 := by
  unfold totalImpact
  apply List.sum_eq_zero
  intro x hx
  rcases List.mem_map.mp hx with ⟨e, he, rfl⟩
  rw [List.count_eq_zero.mpr (h e he), Nat.cast_zero, mul_zero]

theorem lookup_eq_none_of_not_mem {β : Type} (e : String) :
    ∀ l : List (String × β), e ∉ l.map Prod.fst → l.lookup e = none := by
  intro l
  induction l with
  | nil => intro _; rfl
  | cons p ps ih =>
    intro h
    have hb : (e == p.1) = false := by
      apply beq_eq_false_iff_ne.mpr
      intro he
      exact h (by simp [he])
    have h2 : e ∉ ps.map Prod.fst := fun hm => h (List.mem_cons_of_mem _ hm)
    simp [List.lookup, hb, ih h2]

theorem map_add_zero_impact (t : Int → ℚ) :
    ∀ s : Series, (∀ p ∈ s, t p.1 = 0) →
      s.map (fun p => (p.1, p.2 + t p.1)) = s := by
  intro s
  induction s with
  | nil => intro _; rfl
  | cons p ps ih =>
    intro h
    have hp := h p (List.mem_cons_self p ps)
    simp only [List.map_cons, hp, add_zero, ih (fun q hq => h q (List.mem_cons_of_mem p hq))]

/-! Scenario construction lemmas. -/

theorem scenario_combo (c : ℚ) :
    ∀ (b w : Series),
      seriesAdd b (seriesScale c (seriesSub w b))
        = List.zipWith (fun p q => (p.1, p.2 + c * (q.2 - p.2))) b w := by
  intro b
  induction b with
  | nil => intro w; rfl
  | cons p ps ih =>
    intro w
    cases w with
    | nil => rfl
    | cons q qs =>
      simp only [seriesAdd, seriesScale, seriesSub, List.zipWith_cons_cons, List.map_cons]
      refine congrArg₂ List.cons rfl ?_
      exact ih qs

theorem seriesIndex_zipWith_pair (f : Int × ℚ → Int × ℚ → ℚ) :
    ∀ (b w : Series), w.length = b.length →
      seriesIndex (List.zipWith (fun p q => (p.1, f p q)) b w) = seriesIndex b := by
  intro b
  induction b with
  | nil => intro w _; rfl
  | cons p ps ih =>
    intro w hw
    cases w with
    | nil => simp at hw
    | cons q qs =>
      simp only [List.zipWith_cons_cons, seriesIndex, List.map_cons]
      refine congrArg₂ List.cons rfl ?_
      exact ih qs (by simpa using hw)

theorem seriesValues_getD (s : Series) (i : ℕ) (hi : i < s.length) :
    (seriesValues s).getD i 0 = (s.get ⟨i, hi⟩).2 := by
  rw [seriesValues, List.getD_eq_getElem _ _ (by simpa using hi), List.getElem_map]
  rfl

theorem seriesValues_zipWith_getD (f : Int × ℚ → Int × ℚ → ℚ) (b w : Series)
    (i : ℕ) (hb : i < b.length) (hw : i < w.length) :
    (seriesValues (List.zipWith (fun p q => (p.1, f p q)) b w)).getD i 0
      = f (b.get ⟨i, hb⟩) (w.get ⟨i, hw⟩) := by
  have hz : i < (List.zipWith (fun p q => (p.1, f p q)) b w).length := by
    rw [List.length_zipWith]
    exact lt_min hb hw
  rw [seriesValues, List.getD_eq_getElem _ _ (by simpa using hz), List.getElem_map,
    List.getElem_zipWith]
  rfl

/-- Claim C2: for every baseline and with_events series on the same year
index, build_scenarios satisfies optimistic - baseline = 1.2 * (with_events -
baseline) and pessimistic - baseline = 0.7 * (with_events - baseline) at
every position of the index, base equals with_events exactly, and all three
output series carry the input year index with no reordering. -/
theorem build_scenarios_laws (b w : Series)
    (hidx : seriesIndex b = seriesIndex w) :
    (build_scenarios b w).base = w ∧
    seriesIndex (build_scenarios b w).optimistic = seriesIndex b ∧
    seriesIndex (build_scenarios b w).base = seriesIndex b ∧
    seriesIndex (build_scenarios b w).pessimistic = seriesIndex b ∧
    (∀ i : ℕ, i < b.length →
      (seriesValues (build_scenarios b w).optimistic).getD i 0
          - (seriesValues b).getD i 0
        = 12/10 * ((seriesValues w).getD i 0 - (seriesValues b).getD i 0) ∧
      (seriesValues (build_scenarios b w).pessimistic).getD i 0
          - (seriesValues b).getD i 0
        = 7/10 * ((seriesValues w).getD i 0 - (seriesValues b).getD i 0)) := by
  have hlen : w.length = b.length := by
    have := congrArg List.length hidx
    simpa [seriesIndex] using this.symm
  have hopt : (build_scenarios b w).optimistic
      = List.zipWith (fun p q => (p.1, p.2 + 12/10 * (q.2 - p.2))) b w :=
    scenario_combo (12/10) b w
  have hpes : (build_scenarios b w).pessimistic
      = List.zipWith (fun p q => (p.1, p.2 + 7/10 * (q.2 - p.2))) b w :=
    scenario_combo (7/10) b w
  refine ⟨rfl, ?_, ?_, ?_, ?_⟩
  · rw [hopt]
    exact seriesIndex_zipWith_pair _ b w hlen
  · exact hidx.symm
  · rw [hpes]
    exact seriesIndex_zipWith_pair _ b w hlen
  · intro i hi
    have hwi : i < w.length := by omega
    constructor
    · rw [hopt, seriesValues_zipWith_getD _ b w i hi hwi,
        seriesValues_getD b i hi, seriesValues_getD w i hwi]
      ring
    · rw [hpes, seriesValues_zipWith_getD _ b w i hi hwi,
        seriesValues_getD b i hi, seriesValues_getD w i hwi]
      ring

/-- Witness for claim C2 at a concrete input. -/
theorem build_scenarios_laws_witness :
    seriesIndex [((2025 : Int), (50 : ℚ))] = seriesIndex [((2025 : Int), (51 : ℚ))] ∧
    (build_scenarios [((2025 : Int), (50 : ℚ))] [((2025 : Int), (51 : ℚ))]).base
      = [((2025 : Int), (51 : ℚ))] :=
  ⟨by decide, (build_scenarios_laws [((2025 : Int), (50 : ℚ))]
      [((2025 : Int), (51 : ℚ))] (by decide)).1⟩

/-- Claim C3: apply_event_impacts adds, at every entry of the baseline, the
sum over all (event, impact) pairs of impact * multiplier times the number of
scheduled occurrences of that entry's year: scheduled years present in the
index receive effect * multiplier, and the effects of several events hitting
the same year accumulate by plain summation with no saturation or
interaction. -/
theorem apply_event_impacts_additive (b : Series) (ei : List (String × ℚ))
    (es : List (String × List Int)) (m : ℚ) :
    apply_event_impacts b ei es m
      = b.map (fun p => (p.1, p.2 + totalImpact ei es m p.1)) :=
  apply_event_impacts_closed_form b ei es m

/-- Claim C6: a scheduled event year that is absent from the baseline index
is silently ignored; when no scheduled year of any event meets the baseline
index the adjusted series equals the baseline (no-op law). -/
theorem apply_event_impacts_noop (b : Series) (ei : List (String × ℚ))
    (es : List (String × List Int)) (m : ℚ)
    (h : ∀ e ∈ ei, ∀ y ∈ scheduleOf es e.1, y ∉ seriesIndex b) :
    apply_event_impacts b ei es m = b := by
  rw [apply_event_impacts_closed_form]
  apply map_add_zero_impact
  intro p hp
  apply totalImpact_zero_of_unscheduled
  intro e he hy
  exact h e he p.1 hy (List.mem_map.mpr ⟨p, hp, rfl⟩)

/-- Witness for claim C6 at a concrete input. -/
theorem apply_event_impacts_noop_witness :
    (∀ e ∈ [(("E" : String), (3/2 : ℚ))], ∀ y ∈ scheduleOf [("E", [2030])] e.1,
        y ∉ seriesIndex [((2025 : Int), (50 : ℚ))]) ∧
    apply_event_impacts [((2025 : Int), (50 : ℚ))] [("E", (3/2 : ℚ))]
        [("E", [2030])] 1 = [((2025 : Int), (50 : ℚ))] :=
  ⟨by decide, apply_event_impacts_noop [((2025 : Int), (50 : ℚ))]
      [("E", (3/2 : ℚ))] [("E", [2030])] 1 (by decide)⟩

/-- Claim C9: the event adjustment is linear in the scenario multiplier:
applying with multiplier m equals baseline plus m times the delta obtained
with multiplier 1, entrywise on the whole index. -/
theorem apply_event_impacts_linear_in_multiplier (b : Series)
    (ei : List (String × ℚ)) (es : List (String × List Int)) (m : ℚ) :
    apply_event_impacts b ei es m
      = seriesAdd b (seriesScale m (seriesSub (apply_event_impacts b ei es 1) b)) := by
  rw [apply_event_impacts_closed_form, apply_event_impacts_closed_form]
  induction b with
  | nil => rfl
  | cons p ps ih =>
    simp only [List.map_cons, seriesSub, seriesScale, seriesAdd,
      List.zipWith_cons_cons]
    refine congrArg₂ List.cons ?_ ?_
    · refine congrArg (Prod.mk p.1) ?_
      rw [totalImpact_mul]
      ring
    · exact ih

/-- Claim C10: an event present in the impact mapping but missing from the
schedule mapping is treated as scheduled for no years: it contributes
nothing and no error arises. -/
theorem apply_event_impacts_unscheduled_event (b : Series) (e : String)
    (imp : ℚ) (ei : List (String × ℚ)) (es : List (String × List Int)) (m : ℚ)
    (h : e ∉ es.map Prod.fst) :
    apply_event_impacts b ((e, imp) :: ei) es m
      = apply_event_impacts b ei es m := by
  rw [apply_event_impacts_closed_form, apply_event_impacts_closed_form]
  congr 1
  funext p
  refine congrArg (Prod.mk p.1) ?_
  simp only [totalImpact, List.map_cons, List.sum_cons, scheduleOf,
    lookup_eq_none_of_not_mem e es h, Option.getD_none, List.count_nil,
    Nat.cast_zero, mul_zero, zero_add]

/-- Witness for claim C10 at a concrete input. -/
theorem apply_event_impacts_unscheduled_event_witness :
    (("E" : String) ∉ [(("F" : String), [(2025 : Int)])].map Prod.fst) ∧
    apply_event_impacts [((2025 : Int), (50 : ℚ))] [("E", (1 : ℚ))]
        [("F", [2025])] 1
      = apply_event_impacts [((2025 : Int), (50 : ℚ))] [] [("F", [2025])] 1 :=
  ⟨by decide, apply_event_impacts_unscheduled_event [((2025 : Int), (50 : ℚ))]
      "E" 1 [] [("F", [2025])] 1 (by decide)⟩

/-! Frame lemmas for the body of apply_event_impacts. -/

theorem inner_fold_baseline (d : ℚ) :
    ∀ (ys : List Int) (st : EventImpactsLocals),
      (ys.foldl (fun st y => ⟨st.baseline, addAtYear st.adjusted y d⟩) st).baseline
        = st.baseline := by
  intro ys
  induction ys with
  | nil => intro st; rfl
  | cons y ys ih => intro st; rw [List.foldl_cons, ih]

theorem inner_fold_adjusted (d : ℚ) :
    ∀ (ys : List Int) (st : EventImpactsLocals),
      (ys.foldl (fun st y => ⟨st.baseline, addAtYear st.adjusted y d⟩) st).adjusted
        = ys.foldl (fun adj y => addAtYear adj y d) st.adjusted := by
  intro ys
  induction ys with
  | nil => intro st; rfl
  | cons y ys ih => intro st; rw [List.foldl_cons, ih, List.foldl_cons]

theorem body_fold_baseline (es : List (String × List Int)) (m : ℚ) :
    ∀ (ei : List (String × ℚ)) (st : EventImpactsLocals),
      (ei.foldl
          (fun st e =>
            (scheduleOf es e.1).foldl
              (fun st y => ⟨st.baseline, addAtYear st.adjusted y (e.2 * m)⟩) st)
          st).baseline
        = st.baseline := by
  intro ei
  induction ei with
  | nil => intro st; rfl
  | cons e ei ih =>
    intro st
    rw [List.foldl_cons, ih, inner_fold_baseline]

theorem body_fold_adjusted (es : List (String × List Int)) (m : ℚ) :
    ∀ (ei : List (String × ℚ)) (st : EventImpactsLocals),
      (ei.foldl
          (fun st e =>
            (scheduleOf es e.1).foldl
              (fun st y => ⟨st.baseline, addAtYear st.adjusted y (e.2 * m)⟩) st)
          st).adjusted
        = ei.foldl
            (fun adjusted e =>
              (scheduleOf es e.1).foldl
                (fun adj y => addAtYear adj y (e.2 * m)) adjusted)
            st.adjusted := by
  intro ei
  induction ei with
  | nil => intro st; rfl
  | cons e ei ih =>
    intro st
    rw [List.foldl_cons, ih, inner_fold_adjusted, List.foldl_cons]

/-- Claim C8: apply_event_impacts works on a copy: across the whole body the
baseline local variable is never written, the returned series is the
adjusted copy, and that new series carries the baseline's year index. -/
theorem apply_event_impacts_copy_semantics (b : Series)
    (ei : List (String × ℚ)) (es : List (String × List Int)) (m : ℚ) :
    (apply_event_impacts_body b ei es m).baseline = b ∧
    (apply_event_impacts_body b ei es m).adjusted
      = apply_event_impacts b ei es m ∧
    seriesIndex (apply_event_impacts b ei es m) = seriesIndex b := by
  refine ⟨body_fold_baseline es m ei ⟨b, b⟩, ?_, ?_⟩
  · rw [apply_event_impacts_body, body_fold_adjusted]
    rfl
  · rw [apply_event_impacts_closed_form]
    exact seriesIndex_map_snd b _

theorem run_eq_none_iff (rlog rexp : ℚ → ℚ)
    (historical : List (Int × ℚ)) (forecast_years : List Int)
    (event_impacts : List (String × ℚ)) (event_schedule : List (String × List Int))
    (log_trend : Bool) (uncertainty_width : ℚ) :
    run_forecast_pipeline rlog rexp historical forecast_years event_impacts
        event_schedule log_trend uncertainty_width = none
      ↔ historical = [] := by
  unfold run_forecast_pipeline fit_trend_model
  cases historical with
  | nil => simp
  | cons p ps => simp

/-- Claim C5 (amended): run_forecast_pipeline aborts with no output exactly
when the historical input is empty; any nonempty input, including one with a
single distinct year, is fitted (the degenerate least-squares model) and the
pipeline returns a table. -/
theorem run_forecast_pipeline_none_iff (rlog rexp : ℚ → ℚ)
    (historical : List (Int × ℚ)) (forecast_years : List Int)
    (event_impacts : List (String × ℚ)) (event_schedule : List (String × List Int))
    (log_trend : Bool) (uncertainty_width : ℚ) :
    run_forecast_pipeline rlog rexp historical forecast_years event_impacts
        event_schedule log_trend uncertainty_width = none
      ↔ historical = [] :=
  run_eq_none_iff rlog rexp historical forecast_years event_impacts
    event_schedule log_trend uncertainty_width

/-- Counterexample to claim C5 as stated: a historical input with a single
distinct year (fewer than two) does not abort; the pipeline returns a
table. -/
theorem run_forecast_pipeline_single_year_succeeds :
    (run_forecast_pipeline id id [((2020 : Int), (10 : ℚ))] [2025, 2026] [] []
        false (1/5)).isSome = true := by
  decide

/-! Ordinary-least-squares lemmas for the trend model. -/

theorem length_cast_ne_zero (pts : List (ℚ × ℚ)) (h : pts ≠ []) :
    (pts.length : ℚ) ≠ 0 :=
  Nat.cast_ne_zero.mpr (List.length_pos.mpr h).ne'

theorem sum_sub_xbar (pts : List (ℚ × ℚ)) (h : pts ≠ []) :
    (pts.map (fun p => p.1 - xbar pts)).sum = 0 := by
  rw [sum_map_sub_const, xbar, mul_div_cancel₀ _ (length_cast_ne_zero pts h),
    sub_self]

theorem sum_sub_ybar (pts : List (ℚ × ℚ)) (h : pts ≠ []) :
    (pts.map (fun p => p.2 - ybar pts)).sum = 0 := by
  rw [sum_map_sub_const, ybar, mul_div_cancel₀ _ (length_cast_ne_zero pts h),
    sub_self]

theorem sum_residual_decomp (l : List (ℚ × ℚ)) (cx cy A : ℚ) :
    (l.map (fun p => p.2 - (A * p.1 + (cy - A * cx)))).sum
      = (l.map (fun p => p.2 - cy)).sum - A * (l.map (fun p => p.1 - cx)).sum := by
  induction l with
  | nil => simp
  | cons p ps ih =>
    simp only [List.map_cons, List.sum_cons]
    rw [ih]
    ring

theorem sum_x_residual_decomp (l : List (ℚ × ℚ)) (cx cy A : ℚ) :
    (l.map (fun p => p.1 * (p.2 - (A * p.1 + (cy - A * cx))))).sum
      = ((l.map (fun p => (p.1 - cx) * (p.2 - cy))).sum
          - A * (l.map (fun p => (p.1 - cx) ^ 2)).sum)
        + cx * ((l.map (fun p => p.2 - cy)).sum
          - A * (l.map (fun p => p.1 - cx)).sum) := by
  induction l with
  | nil => simp
  | cons p ps ih =>
    simp only [List.map_cons, List.sum_cons]
    rw [ih]
    ring

theorem sum_sq_decomp (l : List (ℚ × ℚ)) (A B a b : ℚ) :
    (l.map (fun p => (p.2 - (a * p.1 + b)) ^ 2)).sum
      = (l.map (fun p => (p.2 - (A * p.1 + B)) ^ 2)).sum
        + (2 * (A - a)) * (l.map (fun p => p.1 * (p.2 - (A * p.1 + B)))).sum
        + (2 * (B - b)) * (l.map (fun p => p.2 - (A * p.1 + B))).sum
        + (l.map (fun p => ((A - a) * p.1 + (B - b)) ^ 2)).sum := by
  induction l with
  | nil => simp
  | cons p ps ih =>
    simp only [List.map_cons, List.sum_cons]
    rw [ih]
    ring

theorem ssxy_eq_zero_of_ssxx_eq_zero (pts : List (ℚ × ℚ)) (h0 : ssxx pts = 0) :
    ssxy pts = 0 := by
  have h1 : (pts.map (fun q => (q.1 - xbar pts) ^ 2)).sum = 0 := h0
  have hall : ∀ p ∈ pts, p.1 - xbar pts = 0 := by
    intro p hp
    have hsq : (p.1 - xbar pts) ^ 2 = 0 := by
      refine sum_all_zero_of_nonneg (pts.map (fun q => (q.1 - xbar pts) ^ 2))
        ?_ h1 _ (List.mem_map.mpr ⟨p, hp, rfl⟩)
      intro x hx
      rcases List.mem_map.mp hx with ⟨q, _, rfl⟩
      exact sq_nonneg _
    exact pow_eq_zero_iff two_ne_zero |>.mp hsq
  unfold ssxy
  apply List.sum_eq_zero
  intro x hx
  rcases List.mem_map.mp hx with ⟨p, hp, rfl⟩
  rw [hall p hp, zero_mul]

theorem residual_sum_zero (pts : List (ℚ × ℚ)) (h : pts ≠ []) :
    (pts.map (fun p => p.2 - (fitSlope pts * p.1 + fitIntercept pts))).sum = 0 := by
  unfold fitIntercept
  rw [sum_residual_decomp, sum_sub_ybar pts h, sum_sub_xbar pts h, mul_zero,
    sub_zero]

theorem residual_dot_x_zero (pts : List (ℚ × ℚ)) (h : pts ≠ []) :
    (pts.map (fun p => p.1 * (p.2 - (fitSlope pts * p.1 + fitIntercept pts)))).sum
      = 0 := by
  unfold fitIntercept
  rw [sum_x_residual_decomp, sum_sub_ybar pts h, sum_sub_xbar pts h]
  have hxy : (pts.map (fun p => (p.1 - xbar pts) * (p.2 - ybar pts))).sum = ssxy pts := rfl
  have hxx : (pts.map (fun p => (p.1 - xbar pts) ^ 2)).sum = ssxx pts := rfl
  rw [hxy, hxx]
  unfold fitSlope
  split
  · next h0 => rw [ssxy_eq_zero_of_ssxx_eq_zero pts h0, h0]; ring
  · next h0 => rw [div_mul_cancel₀ _ h0]; ring

theorem sse_fit_le (pts : List (ℚ × ℚ)) (h : pts ≠ []) (a b : ℚ) :
    sse pts (fitSlope pts) (fitIntercept pts) ≤ sse pts a b := by
  have key := sum_sq_decomp pts (fitSlope pts) (fitIntercept pts) a b
  have hnn : 0 ≤ (pts.map
      (fun p => ((fitSlope pts - a) * p.1 + (fitIntercept pts - b)) ^ 2)).sum := by
    apply List.sum_nonneg
    intro x hx
    rcases List.mem_map.mp hx with ⟨p, _, rfl⟩
    exact sq_nonneg _
  unfold sse
  rw [key, residual_dot_x_zero pts h, residual_sum_zero pts h]
  linarith

theorem zip_self_map (f : Int → ℚ) :
    ∀ l : List Int, l.zip (l.map f) = l.map (fun y => (y, f y)) := by
  intro l
  induction l with
  | nil => rfl
  | cons y ys ih => simp only [List.map_cons, List.zip_cons_cons, ih]

/-- Claim C7: for a nonempty historical sample, fit_trend_model with
log_transform fits by ordinary least squares on (year, log value): the
returned (slope, intercept) minimizes the sum of squared residuals over the
logged sample; forecast_trend under log_transform returns the exponential of
the linear prediction slope * year + intercept at each requested year, and
without log_transform it returns the linear prediction itself. -/
theorem fit_forecast_log_ols (rlog rexp : ℚ → ℚ) (data : List (Int × ℚ))
    (years : List Int) (h : data ≠ []) :
    fit_trend_model rlog data true
      = some (fitSlope (trainingPoints rlog data true),
              fitIntercept (trainingPoints rlog data true)) ∧
    (∀ a b : ℚ,
      sse (trainingPoints rlog data true)
          (fitSlope (trainingPoints rlog data true))
          (fitIntercept (trainingPoints rlog data true))
        ≤ sse (trainingPoints rlog data true) a b) ∧
    (∀ model : ℚ × ℚ,
      forecast_trend rexp model years true
        = years.map (fun (y : Int) => (y, rexp (model.1 * (y : ℚ) + model.2))) ∧
      forecast_trend rexp model years false
        = years.map (fun (y : Int) => (y, model.1 * (y : ℚ) + model.2))) := by
  refine ⟨?_, ?_, ?_⟩
  · unfold fit_trend_model
    rw [if_neg (by simpa [List.isEmpty_iff] using h)]
  · intro a b
    apply sse_fit_le
    intro hnil
    exact h (List.map_eq_nil_iff.mp hnil)
  · intro model
    constructor
    · unfold forecast_trend
      simp only [if_true, List.map_map]
      rw [zip_self_map]
      rfl
    · simp only [forecast_trend]
      rw [if_neg (by simp), zip_self_map]

/-- Witness for claim C7 at a concrete input. -/
theorem fit_forecast_log_ols_witness :
    ([((2020 : Int), (10 : ℚ))] ≠ ([] : List (Int × ℚ))) ∧
    fit_trend_model id [((2020 : Int), (10 : ℚ))] true
      = some (fitSlope (trainingPoints id [((2020 : Int), (10 : ℚ))] true),
              fitIntercept (trainingPoints id [((2020 : Int), (10 : ℚ))] true)) :=
  ⟨by decide, (fit_forecast_log_ols id id [((2020 : Int), (10 : ℚ))] [2025]
      (by decide)).1⟩

/-! Length bookkeeping for the pipeline. -/

theorem seriesValues_length (s : Series) : (seriesValues s).length = s.length := by
  simp [seriesValues]

theorem forecast_trend_length (rexp : ℚ → ℚ) (model : ℚ × ℚ) (years : List Int)
    (lt : Bool) : (forecast_trend rexp model years lt).length = years.length := by
  cases lt <;> simp [forecast_trend, List.length_zip]

theorem apply_event_impacts_length (b : Series) (ei : List (String × ℚ))
    (es : List (String × List Int)) (m : ℚ) :
    (apply_event_impacts b ei es m).length = b.length := by
  rw [apply_event_impacts_closed_form]
  simp

theorem build_scenarios_optimistic_length (b w : Series) :
    (build_scenarios b w).optimistic.length = min b.length w.length := by
  have h : (build_scenarios b w).optimistic
      = List.zipWith (fun p q => (p.1, p.2 + 12/10 * (q.2 - p.2))) b w :=
    scenario_combo (12/10) b w
  rw [h, List.length_zipWith]

theorem build_scenarios_pessimistic_length (b w : Series) :
    (build_scenarios b w).pessimistic.length = min b.length w.length := by
  have h : (build_scenarios b w).pessimistic
      = List.zipWith (fun p q => (p.1, p.2 + 7/10 * (q.2 - p.2))) b w :=
    scenario_combo (7/10) b w
  rw [h, List.length_zipWith]

theorem build_scenarios_base (b w : Series) : (build_scenarios b w).base = w := rfl

theorem compute_confidence_intervals_lower_length (f : Series) (w : ℚ) :
    (compute_confidence_intervals f w).lower.length = f.length := by
  simp [compute_confidence_intervals]

theorem compute_confidence_intervals_upper_length (f : Series) (w : ℚ) :
    (compute_confidence_intervals f w).upper.length = f.length := by
  simp [compute_confidence_intervals]

/-! Rows of the assembled forecast table. -/

theorem mkForecastTable_map_year :
    ∀ (ys : List Int) (bv wv ov mv pv lv uv : List ℚ),
      bv.length = ys.length → wv.length = ys.length → ov.length = ys.length →
      mv.length = ys.length → pv.length = ys.length → lv.length = ys.length →
      uv.length = ys.length →
      (mkForecastTable ys bv wv ov mv pv lv uv).map ForecastRow.year = ys := by
  intro ys
  induction ys with
  | nil =>
    intro bv wv ov mv pv lv uv h1 h2 h3 h4 h5 h6 h7
    rfl
  | cons y ys ih =>
    intro bv wv ov mv pv lv uv h1 h2 h3 h4 h5 h6 h7
    cases bv with
    | nil => simp at h1
    | cons b bs =>
      cases wv with
      | nil => simp at h2
      | cons w ws =>
        cases ov with
        | nil => simp at h3
        | cons o os =>
          cases mv with
          | nil => simp at h4
          | cons a as =>
            cases pv with
            | nil => simp at h5
            | cons p ps =>
              cases lv with
              | nil => simp at h6
              | cons l ls =>
                cases uv with
                | nil => simp at h7
                | cons u us =>
                  simp only [mkForecastTable, List.map_cons]
                  refine congrArg₂ List.cons rfl ?_
                  exact ih bs ws os as ps ls us (by simpa using h1)
                    (by simpa using h2) (by simpa using h3) (by simpa using h4)
                    (by simpa using h5) (by simpa using h6) (by simpa using h7)

theorem mkForecastTable_length (ys : List Int) (bv wv ov mv pv lv uv : List ℚ)
    (h1 : bv.length = ys.length) (h2 : wv.length = ys.length)
    (h3 : ov.length = ys.length) (h4 : mv.length = ys.length)
    (h5 : pv.length = ys.length) (h6 : lv.length = ys.length)
    (h7 : uv.length = ys.length) :
    (mkForecastTable ys bv wv ov mv pv lv uv).length = ys.length := by
  have h := mkForecastTable_map_year ys bv wv ov mv pv lv uv h1 h2 h3 h4 h5 h6 h7
  have h' := congrArg List.length h
  simpa using h'

theorem mkForecastTable_ci (w : ℚ) :
    ∀ (ys : List Int) (bv wv ov mv pv : List ℚ) (i : ℕ),
      bv.length = ys.length → wv.length = ys.length → ov.length = ys.length →
      mv.length = ys.length → pv.length = ys.length →
      (((mkForecastTable ys bv wv ov mv pv (mv.map (fun x => x * (1 - w)))
            (mv.map (fun x => x * (1 + w)))).getD i zeroRow).ci_lower
          = ((mkForecastTable ys bv wv ov mv pv (mv.map (fun x => x * (1 - w)))
            (mv.map (fun x => x * (1 + w)))).getD i zeroRow).base * (1 - w)) ∧
      (((mkForecastTable ys bv wv ov mv pv (mv.map (fun x => x * (1 - w)))
            (mv.map (fun x => x * (1 + w)))).getD i zeroRow).ci_upper
          = ((mkForecastTable ys bv wv ov mv pv (mv.map (fun x => x * (1 - w)))
            (mv.map (fun x => x * (1 + w)))).getD i zeroRow).base * (1 + w)) := by
  intro ys
  induction ys with
  | nil =>
    intro bv wv ov mv pv i h1 h2 h3 h4 h5
    rw [List.length_eq_zero.mp h4]
    constructor <;> simp [mkForecastTable, zeroRow]
  | cons y ys ih =>
    intro bv wv ov mv pv i h1 h2 h3 h4 h5
    cases bv with
    | nil => simp at h1
    | cons b bs =>
      cases wv with
      | nil => simp at h2
      | cons w2 ws =>
        cases ov with
        | nil => simp at h3
        | cons o os =>
          cases mv with
          | nil => simp at h4
          | cons a as =>
            cases pv with
            | nil => simp at h5
            | cons p ps =>
              cases i with
              | zero => constructor <;> rfl
              | succ i =>
                have := ih bs ws os as ps i (by simpa using h1)
                  (by simpa using h2) (by simpa using h3) (by simpa using h4)
                  (by simpa using h5)
                simpa [mkForecastTable, List.map_cons] using this

theorem fit_trend_model_eq_some (rlog : ℚ → ℚ) (historical : List (Int × ℚ))
    (lt : Bool) (hne : historical ≠ []) :
    fit_trend_model rlog historical lt
      = some (fitSlope (trainingPoints rlog historical lt),
              fitIntercept (trainingPoints rlog historical lt)) := by
  unfold fit_trend_model
  rw [if_neg (by simpa [List.isEmpty_iff] using hne)]

theorem run_eq_some (rlog rexp : ℚ → ℚ) (historical : List (Int × ℚ))
    (fy : List Int) (ei : List (String × ℚ)) (es : List (String × List Int))
    (lt : Bool) (w : ℚ) (M : ℚ × ℚ)
    (hfit : fit_trend_model rlog historical lt = some M) :
    run_forecast_pipeline rlog rexp historical fy ei es lt w
      = some (mkForecastTable fy
          (seriesValues (forecast_trend rexp M fy lt))
          (seriesValues (apply_event_impacts (forecast_trend rexp M fy lt) ei es 1))
          (seriesValues (build_scenarios (forecast_trend rexp M fy lt)
            (apply_event_impacts (forecast_trend rexp M fy lt) ei es 1)).optimistic)
          (seriesValues (build_scenarios (forecast_trend rexp M fy lt)
            (apply_event_impacts (forecast_trend rexp M fy lt) ei es 1)).base)
          (seriesValues (build_scenarios (forecast_trend rexp M fy lt)
            (apply_event_impacts (forecast_trend rexp M fy lt) ei es 1)).pessimistic)
          (seriesValues (compute_confidence_intervals
            (build_scenarios (forecast_trend rexp M fy lt)
              (apply_event_impacts (forecast_trend rexp M fy lt) ei es 1)).base w).lower)
          (seriesValues (compute_confidence_intervals
            (build_scenarios (forecast_trend rexp M fy lt)
              (apply_event_impacts (forecast_trend rexp M fy lt) ei es 1)).base w).upper)) := by
  unfold run_forecast_pipeline
  rw [hfit]

/-- Claim C1: for every historical input with at least two distinct years
and every forecast year list, run_forecast_pipeline succeeds and the table
has exactly one row per requested forecast year, in the order of the input
list; the rows are ForecastRow records, whose fields are exactly the columns
year, baseline, with_events, optimistic, base, pessimistic, ci_lower,
ci_upper. -/
theorem run_forecast_pipeline_shape (rlog rexp : ℚ → ℚ)
    (historical : List (Int × ℚ)) (forecast_years : List Int)
    (event_impacts : List (String × ℚ)) (event_schedule : List (String × List Int))
    (log_trend : Bool) (uncertainty_width : ℚ)
    (h : 2 ≤ (historical.map Prod.fst).dedup.length) :
    ∃ t, run_forecast_pipeline rlog rexp historical forecast_years event_impacts
          event_schedule log_trend uncertainty_width = some t ∧
        t.length = forecast_years.length ∧
        t.map ForecastRow.year = forecast_years := by
  have hne : historical ≠ [] := by
    intro he
    rw [he] at h
    simp at h
  rw [run_eq_some rlog rexp historical forecast_years event_impacts
    event_schedule log_trend uncertainty_width _
    (fit_trend_model_eq_some rlog historical log_trend hne)]
  have hB : (forecast_trend rexp
      (fitSlope (trainingPoints rlog historical log_trend),
       fitIntercept (trainingPoints rlog historical log_trend))
      forecast_years log_trend).length = forecast_years.length :=
    forecast_trend_length _ _ _ _
  have hW : (apply_event_impacts (forecast_trend rexp
      (fitSlope (trainingPoints rlog historical log_trend),
       fitIntercept (trainingPoints rlog historical log_trend))
      forecast_years log_trend) event_impacts event_schedule 1).length
      = forecast_years.length := by
    rw [apply_event_impacts_length, hB]
  refine ⟨_, rfl, ?_, ?_⟩
  · exact mkForecastTable_length forecast_years _ _ _ _ _ _ _
      (by simp [seriesValues_length, hB])
      (by simp [seriesValues_length, hW])
      (by simp [seriesValues_length, build_scenarios_optimistic_length, hB, hW])
      (by simp [seriesValues_length, build_scenarios_base, hW])
      (by simp [seriesValues_length, build_scenarios_pessimistic_length, hB, hW])
      (by simp [seriesValues_length, compute_confidence_intervals_lower_length,
        build_scenarios_base, hW])
      (by simp [seriesValues_length, compute_confidence_intervals_upper_length,
        build_scenarios_base, hW])
  · exact mkForecastTable_map_year forecast_years _ _ _ _ _ _ _
      (by simp [seriesValues_length, hB])
      (by simp [seriesValues_length, hW])
      (by simp [seriesValues_length, build_scenarios_optimistic_length, hB, hW])
      (by simp [seriesValues_length, build_scenarios_base, hW])
      (by simp [seriesValues_length, build_scenarios_pessimistic_length, hB, hW])
      (by simp [seriesValues_length, compute_confidence_intervals_lower_length,
        build_scenarios_base, hW])
      (by simp [seriesValues_length, compute_confidence_intervals_upper_length,
        build_scenarios_base, hW])

/-- Witness for claim C1 at a concrete input. -/
theorem run_forecast_pipeline_shape_witness :
    2 ≤ (([((0 : Int), (1 : ℚ)), ((1 : Int), (2 : ℚ))].map Prod.fst).dedup.length) ∧
    (∃ t, run_forecast_pipeline id id [((0 : Int), (1 : ℚ)), ((1 : Int), (2 : ℚ))]
          [2025, 2026] [] [] false (1/5) = some t ∧
        t.length = [(2025 : Int), 2026].length ∧
        t.map ForecastRow.year = [(2025 : Int), 2026]) :=
  ⟨by decide, run_forecast_pipeline_shape id id
      [((0 : Int), (1 : ℚ)), ((1 : Int), (2 : ℚ))] [2025, 2026] [] [] false (1/5)
      (by decide)⟩

/-- Claim C4: compute_confidence_intervals maps a forecast series and width
w to lower = value * (1 - w) and upper = value * (1 + w) per year, and in
run_forecast_pipeline the interval columns come from the base scenario
alone: every row of every pipeline output satisfies ci_lower = base * (1 - w)
and ci_upper = base * (1 + w). -/
theorem confidence_intervals_from_base (f : Series) (w : ℚ) (rlog rexp : ℚ → ℚ)
    (historical : List (Int × ℚ)) (fy : List Int) (ei : List (String × ℚ))
    (es : List (String × List Int)) (lt : Bool) (i : ℕ) :
    (compute_confidence_intervals f w).lower
        = f.map (fun p => (p.1, p.2 * (1 - w))) ∧
    (compute_confidence_intervals f w).upper
        = f.map (fun p => (p.1, p.2 * (1 + w))) ∧
    (((run_forecast_pipeline rlog rexp historical fy ei es lt w).getD []).getD
          i zeroRow).ci_lower
      = (((run_forecast_pipeline rlog rexp historical fy ei es lt w).getD []).getD
          i zeroRow).base * (1 - w) ∧
    (((run_forecast_pipeline rlog rexp historical fy ei es lt w).getD []).getD
          i zeroRow).ci_upper
      = (((run_forecast_pipeline rlog rexp historical fy ei es lt w).getD []).getD
          i zeroRow).base * (1 + w) := by
  refine ⟨rfl, rfl, ?_⟩
  by_cases hh : historical = []
  · rw [(run_eq_none_iff rlog rexp historical fy ei es lt w).mpr hh]
    constructor <;> simp [zeroRow]
  · rw [run_eq_some rlog rexp historical fy ei es lt w _
      (fit_trend_model_eq_some rlog historical lt hh)]
    have hlow : seriesValues (compute_confidence_intervals
        (build_scenarios (forecast_trend rexp
          (fitSlope (trainingPoints rlog historical lt),
           fitIntercept (trainingPoints rlog historical lt)) fy lt)
          (apply_event_impacts (forecast_trend rexp
            (fitSlope (trainingPoints rlog historical lt),
             fitIntercept (trainingPoints rlog historical lt)) fy lt) ei es 1)).base
          w).lower
        = (seriesValues (build_scenarios (forecast_trend rexp
            (fitSlope (trainingPoints rlog historical lt),
             fitIntercept (trainingPoints rlog historical lt)) fy lt)
            (apply_event_impacts (forecast_trend rexp
              (fitSlope (trainingPoints rlog historical lt),
               fitIntercept (trainingPoints rlog historical lt)) fy lt) ei es 1)).base).map
            (fun x => x * (1 - w)) := by
      simp [compute_confidence_intervals, seriesValues, List.map_map]
    have hupp : seriesValues (compute_confidence_intervals
        (build_scenarios (forecast_trend rexp
          (fitSlope (trainingPoints rlog historical lt),
           fitIntercept (trainingPoints rlog historical lt)) fy lt)
          (apply_event_impacts (forecast_trend rexp
            (fitSlope (trainingPoints rlog historical lt),
             fitIntercept (trainingPoints rlog historical lt)) fy lt) ei es 1)).base
          w).upper
        = (seriesValues (build_scenarios (forecast_trend rexp
            (fitSlope (trainingPoints rlog historical lt),
             fitIntercept (trainingPoints rlog historical lt)) fy lt)
            (apply_event_impacts (forecast_trend rexp
              (fitSlope (trainingPoints rlog historical lt),
               fitIntercept (trainingPoints rlog historical lt)) fy lt) ei es 1)).base).map
            (fun x => x * (1 + w)) := by
      simp [compute_confidence_intervals, seriesValues, List.map_map]
    rw [Option.getD_some, hlow, hupp]
    have hB := forecast_trend_length rexp
      (fitSlope (trainingPoints rlog historical lt),
       fitIntercept (trainingPoints rlog historical lt)) fy lt
    have hW : (apply_event_impacts (forecast_trend rexp
        (fitSlope (trainingPoints rlog historical lt),
         fitIntercept (trainingPoints rlog historical lt)) fy lt) ei es 1).length
        = fy.length := by
      rw [apply_event_impacts_length, hB]
    exact mkForecastTable_ci w fy _ _ _ _ _ i
      (by simp [seriesValues_length, hB])
      (by simp [seriesValues_length, hW])
      (by simp [seriesValues_length, build_scenarios_optimistic_length, hB, hW])
      (by simp [seriesValues_length, build_scenarios_base, hW])
      (by simp [seriesValues_length, build_scenarios_pessimistic_length, hB, hW])

end EthiopiaFiForecast
